import Mathlib

/-!
Verification of the segment reconciliation and reconstruction engine of the
Video-editor-with-AI repository (src/video_editing.py and src/classify2.py).

The embedding models the persisted timeline entries as records over exact
rationals (the JSON numbers are loaded as Python floats; only their order and
equality matter to the logic verified here), the stable sort used by the
Timeline Merger, the Classification Gate's in-place labeling loop, the Cut
Planner's keep filter, the Filter-Graph Generator's trim/concat operations,
and the silence-diagnostic parser's regex scan.
-/

/-- A timeline interval as stored in the persisted JSON file: start and end
seconds, a type tag ("speech" or "silence"), an optional text field and an
optional classification label ("Relevant" or "Irrelevant"; absent before the
Classification Gate runs and on silence intervals). -/
structure Entry where
  start : ℚ
  end_ : ℚ
  type : String
  text : Option String
  classification : Option String
deriving DecidableEq

/-- The comparison used by merge_and_save_json: sorted(..., key=lambda x: x["start"]). -/
def startLE (a b : Entry) : Bool := a.start ≤ b.start

/-- merge_and_save_json, line 53: all_data = sorted(speech_data + silence_data,
key=lambda x: x["start"]).  Python's sorted is a stable sort on the start key,
modelled by the stable List.mergeSort; the function performs no validation of
the intervals.  The JSON write of the result is not modelled. -/
def merge_and_save_json (speech_data silence_data : List Entry) : List Entry :=
  (speech_data ++ silence_data).mergeSort startLE

theorem startLE_trans : ∀ a b c : Entry,
    startLE a b = true → startLE b c = true → startLE a c = true := by
  intro a b c hab hbc
  simp only [startLE, decide_eq_true_eq] at *
  exact le_trans hab hbc

theorem startLE_total : ∀ a b : Entry, (startLE a b || startLE b a) = true := by
  intro a b
  simp only [startLE, Bool.or_eq_true, decide_eq_true_eq]
  exact le_total a.start b.start

/-- C3: for all interval lists A (speech) and B (silence), the merge result is
sorted ascending by start, has length len(A) + len(B), and is a permutation of
A ++ B (so every element appears with its content unchanged). -/
theorem merge_spec (A B : List Entry) :
    List.Pairwise (fun a b : Entry => a.start ≤ b.start) (merge_and_save_json A B) ∧
    (merge_and_save_json A B).length = A.length + B.length ∧
    (merge_and_save_json A B).Perm (A ++ B) := by
  refine ⟨?_, ?_, List.mergeSort_perm (A ++ B) startLE⟩
  · have h := List.sorted_mergeSort startLE_trans startLE_total (A ++ B)
    exact h.imp (fun hab => by simpa [startLE] using hab)
  · simp [merge_and_save_json]

/-- C4: a speech interval s and a silence interval t with identical start are
output with s before t: since the merge is a stable sort of speech_data ++
silence_data and speech_data comes first, [s, t] is a sublist of the output. -/
theorem merge_tie_break (A B : List Entry) (s t : Entry)
    (hs : s ∈ A) (ht : t ∈ B) (heq : s.start = t.start) :
    [s, t].Sublist (merge_and_save_json A B) := by
  apply List.sublist_mergeSort startLE_trans startLE_total
  · refine List.pairwise_cons.mpr ⟨?_, List.pairwise_singleton _ _⟩
    intro u hu
    have : u = t := by simpa using hu
    subst this
    simp [startLE, heq]
  · have h1 : [s].Sublist A := List.singleton_sublist.mpr hs
    have h2 : [t].Sublist B := List.singleton_sublist.mpr ht
    exact h1.append h2

/-- Concrete speech and silence entries sharing start = 2 used as the
tie-break witness input. -/
def speechAt2 : Entry := ⟨2, 5, "speech", some "hello", none⟩

/-- Silence entry starting at the same instant as speechAt2. -/
def silenceAt2 : Entry := ⟨2, 3, "silence", none, none⟩

theorem merge_tie_break_witness :
    speechAt2 ∈ [speechAt2] ∧ silenceAt2 ∈ [silenceAt2] ∧
      speechAt2.start = silenceAt2.start ∧
      [speechAt2, silenceAt2].Sublist (merge_and_save_json [speechAt2] [silenceAt2]) :=
  ⟨by decide, by decide, by decide,
    merge_tie_break [speechAt2] [silenceAt2] speechAt2 silenceAt2
      (by decide) (by decide) (by decide)⟩

/-- A degenerate interval with start ≥ end; the merger accepts it unchanged. -/
def degenerateEntry : Entry := ⟨5, 3, "silence", none, none⟩

/-- C5 counterexample: merge_and_save_json performs no structural validation:
on an input containing an interval with start ≥ end it does not fail, it
produces an output timeline containing that interval. -/
theorem merge_no_validation_counterexample :
    degenerateEntry.start ≥ degenerateEntry.end_ ∧
      merge_and_save_json [] [degenerateEntry] = [degenerateEntry] := by
  constructor
  · decide
  · show ([] ++ [degenerateEntry]).mergeSort startLE = [degenerateEntry]
    simp [List.mergeSort_singleton]

/-- C5 amended: the Timeline Merger never raises on intervals with start ≥ end;
every input, including one containing a degenerate interval, is merged into a
full output timeline that still contains the degenerate interval. -/
theorem merge_total_on_degenerate (A B : List Entry) (e : Entry)
    (he : e ∈ A ++ B) (hdeg : e.start ≥ e.end_) :
    (merge_and_save_json A B).length = A.length + B.length ∧
      e ∈ merge_and_save_json A B := by
  have hperm := List.mergeSort_perm (A ++ B) startLE
  constructor
  · simp [merge_and_save_json]
  · exact hperm.mem_iff.mpr he

theorem merge_total_on_degenerate_witness :
    degenerateEntry ∈ ([] : List Entry) ++ [degenerateEntry] ∧
      degenerateEntry.start ≥ degenerateEntry.end_ ∧
      ((merge_and_save_json [] [degenerateEntry]).length
          = ([] : List Entry).length + [degenerateEntry].length ∧
        degenerateEntry ∈ merge_and_save_json [] [degenerateEntry]) :=
  ⟨by decide, by decide,
    merge_total_on_degenerate [] [degenerateEntry] degenerateEntry
      (by decide) (by decide)⟩

/-- The Cut Planner filter of trim_segments, lines 69-73: keep_segments =
[(entry["start"], entry["end"]) for entry in data if
entry.get("classification") == "Relevant"].  Note the code tests only the
classification field; entry.get returns None when the field is absent. -/
def keep_segments (data : List Entry) : List (ℚ × ℚ) :=
  (data.filter (fun e => e.classification == some "Relevant")).map
    (fun e => (e.start, e.end_))

/-- A timeline is well-labeled when only speech intervals carry a
classification field: this is the state of a timeline produced by running the
Classification Gate on the merged (classification-free) timeline, since the
gate assigns classifications only to entries of type "speech". -/
def WellLabeled (data : List Entry) : Prop :=
  ∀ e ∈ data, e.classification ≠ none → e.type = "speech"

instance (data : List Entry) : Decidable (WellLabeled data) := by
  unfold WellLabeled
  infer_instance

/-- C1: on a well-labeled timeline the KeepPlan is exactly the (start, end)
pairs of the intervals with type "speech" and classification "Relevant", in
timeline order, and that filtered list is a subsequence of the timeline. -/
theorem keep_segments_speech_relevant (data : List Entry) (h : WellLabeled data) :
    keep_segments data
        = (data.filter
            (fun e => e.type == "speech" && e.classification == some "Relevant")).map
            (fun e => (e.start, e.end_)) ∧
      (data.filter
          (fun e => e.type == "speech" && e.classification == some "Relevant")).Sublist
        data := by
  constructor
  · unfold keep_segments
    congr 1
    apply List.filter_congr
    intro e he
    by_cases hc : e.classification = some "Relevant"
    · have hs : e.type = "speech" := h e he (by simp [hc])
      simp [hc, hs]
    · have hfalse : (e.classification == some "Relevant") = false := by
        simpa using hc
      simp [hfalse]
  · exact List.filter_sublist data

/-- The worked end-to-end timeline from the specification: relevant intro,
silence, irrelevant ad, relevant content. -/
def exampleTimeline : List Entry :=
  [⟨0, 2, "speech", some "intro", some "Relevant"⟩,
   ⟨2, 3, "silence", none, none⟩,
   ⟨3, 7, "speech", some "ad", some "Irrelevant"⟩,
   ⟨7, 9, "speech", some "content", some "Relevant"⟩]

theorem keep_segments_speech_relevant_witness :
    WellLabeled exampleTimeline ∧
      (keep_segments exampleTimeline
          = (exampleTimeline.filter
              (fun e => e.type == "speech" && e.classification == some "Relevant")).map
              (fun e => (e.start, e.end_)) ∧
        (exampleTimeline.filter
            (fun e => e.type == "speech" && e.classification == some "Relevant")).Sublist
          exampleTimeline) :=
  ⟨by decide, keep_segments_speech_relevant exampleTimeline (by decide)⟩

/-- One trim operation of the generated filter_complex string, lines 80-84: a
video trim [0:v]trim=start=..:end=..,setpts=PTS-STARTPTS[v idx] or an audio
trim [0:a]atrim=start=..:end=..,asetpts=PTS-STARTPTS[a idx]. -/
inductive TrimOp where
  | vtrim (start : ℚ) (end_ : ℚ) (idx : Nat)
  | atrim (start : ℚ) (end_ : ℚ) (idx : Nat)
deriving DecidableEq

/-- filter_complex, lines 80-84: for each enumerated keep segment, one video
trim labelled v idx immediately followed by one audio trim labelled a idx. -/
def filter_complex (keep : List (ℚ × ℚ)) : List TrimOp :=
  (keep.enum.map
    (fun p => [TrimOp.vtrim p.2.1 p.2.2 p.1, TrimOp.atrim p.2.1 p.2.2 p.1])).flatten

/-- The single concat operation of line 86: the pair labels [v0][a0]..[v K-1][a K-1]
referenced in index order, followed by concat=n=K:v=1:a=1 [v][a]. -/
structure ConcatOp where
  refs : List Nat
  n : Nat
deriving DecidableEq

/-- concat_v, line 86: references pair i for every i below the number of keep
segments, in index order, with n equal to that number. -/
def concat_v (keep : List (ℚ × ℚ)) : ConcatOp :=
  ⟨List.range keep.length, keep.length⟩

/-- Selector for video trim operations. -/
def isVideoTrim : TrimOp → Bool
  | TrimOp.vtrim _ _ _ => true
  | TrimOp.atrim _ _ _ => false

/-- Selector for audio trim operations. -/
def isAudioTrim : TrimOp → Bool
  | TrimOp.vtrim _ _ _ => false
  | TrimOp.atrim _ _ _ => true

/-- The label index of a trim operation. -/
def trimIdx : TrimOp → Nat
  | TrimOp.vtrim _ _ i => i
  | TrimOp.atrim _ _ i => i

/-- The (start, end) bounds of a trim operation. -/
def trimBounds : TrimOp → ℚ × ℚ
  | TrimOp.vtrim s e _ => (s, e)
  | TrimOp.atrim s e _ => (s, e)

theorem filter_complex_video_aux (n : Nat) (keep : List (ℚ × ℚ)) :
    ((List.enumFrom n keep).map
        (fun p => [TrimOp.vtrim p.2.1 p.2.2 p.1, TrimOp.atrim p.2.1 p.2.2 p.1])).flatten.filter
        isVideoTrim
      = (List.enumFrom n keep).map (fun p => TrimOp.vtrim p.2.1 p.2.2 p.1) := by
  induction keep generalizing n with
  | nil => rfl
  | cons hd tl ih => simp [List.enumFrom, isVideoTrim, ih]

theorem filter_complex_audio_aux (n : Nat) (keep : List (ℚ × ℚ)) :
    ((List.enumFrom n keep).map
        (fun p => [TrimOp.vtrim p.2.1 p.2.2 p.1, TrimOp.atrim p.2.1 p.2.2 p.1])).flatten.filter
        isAudioTrim
      = (List.enumFrom n keep).map (fun p => TrimOp.atrim p.2.1 p.2.2 p.1) := by
  induction keep generalizing n with
  | nil => rfl
  | cons hd tl ih => simp [List.enumFrom, isAudioTrim, ih]

theorem enum_eq_enumFrom {α : Type} (l : List α) : l.enum = List.enumFrom 0 l := rfl

/-- C2: for a KeepPlan of length K ≥ 1 the generated graph has exactly K video
trims and K audio trims, whose labels are v0..v(K-1) and a0..a(K-1) in index
order and whose bounds are exactly the KeepPlan pairs in KeepPlan order, and
the single concat operation references each pair index exactly once, in index
order, with n = K. -/
theorem filter_graph_spec (keep : List (ℚ × ℚ)) (hk : 1 ≤ keep.length) :
    (filter_complex keep).filter isVideoTrim
        = keep.enum.map (fun p => TrimOp.vtrim p.2.1 p.2.2 p.1) ∧
      (filter_complex keep).filter isAudioTrim
        = keep.enum.map (fun p => TrimOp.atrim p.2.1 p.2.2 p.1) ∧
      ((filter_complex keep).filter isVideoTrim).length = keep.length ∧
      ((filter_complex keep).filter isAudioTrim).length = keep.length ∧
      ((filter_complex keep).filter isVideoTrim).map trimIdx = List.range keep.length ∧
      ((filter_complex keep).filter isAudioTrim).map trimIdx = List.range keep.length ∧
      ((filter_complex keep).filter isVideoTrim).map trimBounds = keep ∧
      ((filter_complex keep).filter isAudioTrim).map trimBounds = keep ∧
      (concat_v keep).refs = List.range keep.length ∧
      (concat_v keep).refs.Nodup ∧
      (∀ i, i ∈ (concat_v keep).refs ↔ i < keep.length) ∧
      (concat_v keep).n = keep.length := by
  have hv : (filter_complex keep).filter isVideoTrim
      = keep.enum.map (fun p => TrimOp.vtrim p.2.1 p.2.2 p.1) := by
    unfold filter_complex
    rw [enum_eq_enumFrom]
    exact filter_complex_video_aux 0 keep
  have ha : (filter_complex keep).filter isAudioTrim
      = keep.enum.map (fun p => TrimOp.atrim p.2.1 p.2.2 p.1) := by
    unfold filter_complex
    rw [enum_eq_enumFrom]
    exact filter_complex_audio_aux 0 keep
  have hidxv : ((filter_complex keep).filter isVideoTrim).map trimIdx
      = List.range keep.length := by
    rw [hv, List.map_map]
    have : (trimIdx ∘ fun p : Nat × (ℚ × ℚ) => TrimOp.vtrim p.2.1 p.2.2 p.1)
        = Prod.fst := by
      funext p
      rfl
    rw [this, List.enum_map_fst]
  have hidxa : ((filter_complex keep).filter isAudioTrim).map trimIdx
      = List.range keep.length := by
    rw [ha, List.map_map]
    have : (trimIdx ∘ fun p : Nat × (ℚ × ℚ) => TrimOp.atrim p.2.1 p.2.2 p.1)
        = Prod.fst := by
      funext p
      rfl
    rw [this, List.enum_map_fst]
  have hbv : ((filter_complex keep).filter isVideoTrim).map trimBounds = keep := by
    rw [hv, List.map_map]
    have : (trimBounds ∘ fun p : Nat × (ℚ × ℚ) => TrimOp.vtrim p.2.1 p.2.2 p.1)
        = Prod.snd := by
      funext p
      rfl
    rw [this, List.enum_map_snd]
  have hba : ((filter_complex keep).filter isAudioTrim).map trimBounds = keep := by
    rw [ha, List.map_map]
    have : (trimBounds ∘ fun p : Nat × (ℚ × ℚ) => TrimOp.atrim p.2.1 p.2.2 p.1)
        = Prod.snd := by
      funext p
      rfl
    rw [this, List.enum_map_snd]
  refine ⟨hv, ha, ?_, ?_, hidxv, hidxa, hbv, hba, rfl, List.nodup_range _,
    fun i => List.mem_range, rfl⟩
  · rw [hv]
    simp
  · rw [ha]
    simp

theorem filter_graph_spec_witness :
    1 ≤ [((0 : ℚ), (2 : ℚ)), (7, 9)].length ∧
      ((filter_complex [((0 : ℚ), (2 : ℚ)), (7, 9)]).filter isVideoTrim
          = [((0 : ℚ), (2 : ℚ)), (7, 9)].enum.map
              (fun p => TrimOp.vtrim p.2.1 p.2.2 p.1) ∧
        (filter_complex [((0 : ℚ), (2 : ℚ)), (7, 9)]).filter isAudioTrim
          = [((0 : ℚ), (2 : ℚ)), (7, 9)].enum.map
              (fun p => TrimOp.atrim p.2.1 p.2.2 p.1) ∧
        ((filter_complex [((0 : ℚ), (2 : ℚ)), (7, 9)]).filter isVideoTrim).length
          = [((0 : ℚ), (2 : ℚ)), (7, 9)].length ∧
        ((filter_complex [((0 : ℚ), (2 : ℚ)), (7, 9)]).filter isAudioTrim).length
          = [((0 : ℚ), (2 : ℚ)), (7, 9)].length ∧
        ((filter_complex [((0 : ℚ), (2 : ℚ)), (7, 9)]).filter isVideoTrim).map trimIdx
          = List.range [((0 : ℚ), (2 : ℚ)), (7, 9)].length ∧
        ((filter_complex [((0 : ℚ), (2 : ℚ)), (7, 9)]).filter isAudioTrim).map trimIdx
          = List.range [((0 : ℚ), (2 : ℚ)), (7, 9)].length ∧
        ((filter_complex [((0 : ℚ), (2 : ℚ)), (7, 9)]).filter isVideoTrim).map trimBounds
          = [((0 : ℚ), (2 : ℚ)), (7, 9)] ∧
        ((filter_complex [((0 : ℚ), (2 : ℚ)), (7, 9)]).filter isAudioTrim).map trimBounds
          = [((0 : ℚ), (2 : ℚ)), (7, 9)] ∧
        (concat_v [((0 : ℚ), (2 : ℚ)), (7, 9)]).refs
          = List.range [((0 : ℚ), (2 : ℚ)), (7, 9)].length ∧
        (concat_v [((0 : ℚ), (2 : ℚ)), (7, 9)]).refs.Nodup ∧
        (∀ i, i ∈ (concat_v [((0 : ℚ), (2 : ℚ)), (7, 9)]).refs
            ↔ i < [((0 : ℚ), (2 : ℚ)), (7, 9)].length) ∧
        (concat_v [((0 : ℚ), (2 : ℚ)), (7, 9)]).n
          = [((0 : ℚ), (2 : ℚ)), (7, 9)].length) :=
  ⟨by decide, filter_graph_spec [((0 : ℚ), (2 : ℚ)), (7, 9)] (by decide)⟩

/-- One invocation of the external transcoder, built at lines 88-95 of
trim_segments: the filter graph (trim operations plus the single concat) and
the output path of the -y ffmpeg run. -/
structure Invocation where
  filterOps : List TrimOp
  concat : ConcatOp
  output : String
deriving DecidableEq

/-- trim_segments, lines 63-97: compute keep_segments from the loaded
timeline; if it is empty, print a warning and return None without building a
command or invoking the transcoder; otherwise build the filter graph, invoke
the transcoder once, and return the output path. -/
def trim_segments (data : List Entry) (output_vid_path : String) :
    Option Invocation :=
  let keep := keep_segments data
  if keep.isEmpty then none
  else some ⟨filter_complex keep, concat_v keep, output_vid_path⟩

/-- vid_to_aud, lines 13-18, as called from the __main__ pipeline at line 179
with trim_segments' return value: subprocess.run requires a string path, so a
None input raises TypeError; with a real path it produces the audio file. -/
def vid_to_aud (input_video_path : Option String) (output_audio_path : String) :
    Except String String :=
  match input_video_path with
  | none => Except.error "TypeError: argument of type NoneType is not a valid path"
  | some _ => Except.ok output_audio_path

/-- Lines 176-179 of the __main__ pipeline: trimmed_video_path =
trim_segments(input_vid_path); trimmed_audio_path =
vid_to_aud(trimmed_video_path, "trimmed_audio.mp3").  The trim result is
passed to vid_to_aud unconditionally, even when it is None. -/
def pipeline_after_classification (data : List Entry) : Except String String :=
  vid_to_aud ((trim_segments data "output_trimmed.mp4").map Invocation.output)
    "trimmed_audio.mp3"

/-- A labeled timeline whose only speech interval is Irrelevant, so its
KeepPlan is empty. -/
def noRelevantTimeline : List Entry :=
  [⟨0, 2, "speech", some "hello", some "Irrelevant"⟩]

/-- C6: on an empty KeepPlan trim_segments does return None without invoking
the transcoder, but the __main__ pipeline does not exit cleanly: it passes the
None result to vid_to_aud, whose subprocess call raises TypeError, so the run
ends in an error rather than a clean "no relevant content" exit. -/
theorem empty_keepplan_pipeline_crashes :
    keep_segments noRelevantTimeline = [] ∧
      trim_segments noRelevantTimeline "output_trimmed.mp4" = none ∧
      pipeline_after_classification noRelevantTimeline
        = Except.error "TypeError: argument of type NoneType is not a valid path" :=
  ⟨rfl, rfl, rfl⟩

/-- The label written at line 38 of classify2.py: "Relevant" if label == 1
else "Irrelevant". -/
def labelOf (label : Int) : String := if label = 1 then "Relevant" else "Irrelevant"

/-- The update loop of classify2.py lines 37-38: for segment, label in
zip(speech_segments, predictions): segment["classification"] = labelOf label.
speech_segments are the entries of type "speech" in timeline order; the zip
pairs them positionally with the predictions and stops at the shorter
sequence, mutating the shared entry objects in place — modelled as rebuilding
the timeline with the i-th speech entry updated by the i-th prediction. -/
def label_speech : List Entry → List Int → List Entry
  | [], _ => []
  | es, [] => es
  | e :: es, l :: ls =>
    if e.type == "speech" then
      { e with classification := some (labelOf l) } :: label_speech es ls
    else
      e :: label_speech es (l :: ls)

/-- classify2.py lines 22-45, after shape dispatch: collect the speech
segments, read their text fields (a missing text field raises KeyError), and
if there is at least one text, label the speech entries positionally from the
classifier predictions and rewrite the JSON file with the updated data (some
result); with no speech segments print a warning and write nothing (none
result). -/
def classify_entries (entries : List Entry) (predict : List String → List Int) :
    Except String (Option (List Entry)) :=
  let speech_segments := entries.filter (fun e => e.type == "speech")
  if speech_segments.all (fun e => e.text.isSome) then
    let texts := speech_segments.filterMap (fun e => e.text)
    if texts.isEmpty then Except.ok none
    else Except.ok (some (label_speech entries (predict texts)))
  else Except.error "KeyError: text"

/-- The loaded output.json of classify2.py lines 21-26: a mapping with a
"transcription" list, a bare list, or an unrecognized shape. -/
inductive JsonData where
  | obj (transcription : List Entry)
  | arr (entries : List Entry)
  | other
deriving DecidableEq

/-- classify, classify2.py lines 6-45 (file loading and the external model
made explicit): dispatch on the JSON shape — dict with "transcription", bare
list, otherwise ValueError — and run the labeling on the contained entries;
the rewritten file keeps the original container shape. -/
def classify (data : JsonData) (predict : List String → List Int) :
    Except String (Option JsonData) :=
  match data with
  | JsonData.obj entries =>
    (classify_entries entries predict).map (fun o => o.map JsonData.obj)
  | JsonData.arr entries =>
    (classify_entries entries predict).map (fun o => o.map JsonData.arr)
  | JsonData.other => Except.error "Unexpected JSON structure!"

/-- Frame condition of the Classification Gate on one entry: start, end, type
and text are preserved, a non-speech entry is untouched entirely, and the
classification either is unchanged or has been set to a written label. -/
def GateFrame (e e2 : Entry) : Prop :=
  e2.start = e.start ∧ e2.end_ = e.end_ ∧ e2.type = e.type ∧ e2.text = e.text ∧
    (e.type ≠ "speech" → e2 = e) ∧
    (e2.classification = e.classification ∨ ∃ l : Int, e2.classification = some (labelOf l))

theorem GateFrame_refl (e : Entry) : GateFrame e e :=
  ⟨rfl, rfl, rfl, rfl, fun _ => rfl, Or.inl rfl⟩

theorem label_speech_frame (es : List Entry) (ls : List Int) :
    List.Forall₂ GateFrame es (label_speech es ls) := by
  induction es generalizing ls with
  | nil =>
    cases ls <;> exact List.Forall₂.nil
  | cons e es ih =>
    cases ls with
    | nil =>
      exact List.forall₂_same.mpr (fun x _ => GateFrame_refl x)
    | cons l ls =>
      by_cases hsp : e.type == "speech"
      · rw [label_speech, if_pos hsp]
        refine List.Forall₂.cons ?_ (ih ls)
        refine ⟨rfl, rfl, rfl, rfl, ?_, Or.inr ⟨l, rfl⟩⟩
        intro hne
        exact absurd (by simpa using hsp) hne
      · rw [label_speech, if_neg hsp]
        exact List.Forall₂.cons (GateFrame_refl e) (ih (l :: ls))

/-- C7: whenever the Classification Gate rewrites the file, the written
timeline is the input timeline with, as its only change, classification
labels written onto speech entries: pointwise, start, end, type and text are
preserved, non-speech entries are completely unchanged (they never receive a
classification), and a classification differs from the input only by having
been set to a written label on a speech entry. -/
theorem classify_frame (entries : List Entry) (predict : List String → List Int)
    (out : List Entry)
    (h : classify_entries entries predict = Except.ok (some out)) :
    List.Forall₂ GateFrame entries out := by
  simp only [classify_entries] at h
  by_cases h1 : (entries.filter (fun e => e.type == "speech")).all (fun e => e.text.isSome)
  · rw [if_pos h1] at h
    by_cases h2 : ((entries.filter (fun e => e.type == "speech")).filterMap
        (fun e => e.text)).isEmpty
    · rw [if_pos h2] at h
      simp at h
    · rw [if_neg h2] at h
      have hout : label_speech entries
          (predict ((entries.filter (fun e => e.type == "speech")).filterMap
            (fun e => e.text))) = out := by
        simpa using h
      rw [← hout]
      exact label_speech_frame entries _
  · rw [if_neg h1] at h
    simp at h

/-- Speech entry used in the gate witnesses. -/
def wSpeech : Entry := ⟨0, 2, "speech", some "hello world", none⟩

/-- Silence entry used in the gate witnesses. -/
def wSilence : Entry := ⟨2, 3, "silence", none, none⟩

theorem classify_frame_witness :
    classify_entries [wSpeech, wSilence] (fun _ => [1])
        = Except.ok (some [{ wSpeech with classification := some "Relevant" }, wSilence]) ∧
      List.Forall₂ GateFrame [wSpeech, wSilence]
        [{ wSpeech with classification := some "Relevant" }, wSilence] :=
  ⟨rfl, classify_frame [wSpeech, wSilence] (fun _ => [1]) _ rfl⟩

/-- First speech entry of the mismatch scenario. -/
def mismatchA : Entry := ⟨0, 2, "speech", some "alpha", none⟩

/-- Second speech entry of the mismatch scenario. -/
def mismatchB : Entry := ⟨3, 5, "speech", some "beta", none⟩

/-- C8 counterexample: with two speech texts in the batch but a single
predicted label, the gate does not detect the mismatch and does not fail: it
reports success, silently labels only the first speech interval, and leaves
the second one unlabeled. -/
theorem classify_mismatch_counterexample :
    ((fun _ => [(1 : Int)]) (([mismatchA, mismatchB].filter
          (fun e => e.type == "speech")).filterMap (fun e => e.text))).length
        ≠ (([mismatchA, mismatchB].filter (fun e => e.type == "speech")).filterMap
            (fun e => e.text)).length ∧
      classify (JsonData.arr [mismatchA, mismatchB]) (fun _ => [(1 : Int)])
        = Except.ok (some (JsonData.arr
            [{ mismatchA with classification := some "Relevant" }, mismatchB])) :=
  ⟨by decide, rfl⟩

/-- Setting the label of one speech entry, classify2.py line 38. -/
def setLabel (e : Entry) (l : Int) : Entry :=
  { e with classification := some (labelOf l) }

theorem label_speech_filter (entries : List Entry) (ls : List Int) :
    (label_speech entries ls).filter (fun e => e.type == "speech")
      = (List.zipWith setLabel (entries.filter (fun e => e.type == "speech")) ls)
        ++ (entries.filter (fun e => e.type == "speech")).drop ls.length := by
  induction entries generalizing ls with
  | nil => cases ls <;> simp [label_speech]
  | cons e es ih =>
    cases ls with
    | nil => simp [label_speech]
    | cons l ls =>
      by_cases hsp : e.type == "speech"
      · rw [label_speech, if_pos hsp]
        have htype : ((setLabel e l).type == "speech") = true := by
          simpa [setLabel] using hsp
        simp only [List.filter_cons, hsp, htype, if_pos, ih ls]
        simp [setLabel, List.zipWith]
      · rw [label_speech, if_neg hsp]
        simp only [List.filter_cons]
        rw [show (e.type == "speech") = false by simpa using hsp]
        simp [ih (l :: ls)]

/-- C8 amended: a length mismatch between the classifier output and the text
batch is not detected: provided every speech entry has a text field and there
is at least one speech entry, the gate succeeds and rewrites the file
whatever the number of predictions, and the zip silently truncates — exactly
the first min(number of speech entries, number of labels) speech intervals
receive labels, positionally, and the remaining speech intervals are left
unchanged. -/
theorem classify_mismatch_truncates (entries : List Entry)
    (predict : List String → List Int)
    (htext : (entries.filter (fun e => e.type == "speech")).all
      (fun e => e.text.isSome) = true)
    (hne : entries.filter (fun e => e.type == "speech") ≠ []) :
    classify_entries entries predict
        = Except.ok (some (label_speech entries
            (predict ((entries.filter (fun e => e.type == "speech")).filterMap
              (fun e => e.text))))) ∧
      ∀ ls : List Int,
        (label_speech entries ls).filter (fun e => e.type == "speech")
          = (List.zipWith setLabel (entries.filter (fun e => e.type == "speech")) ls)
            ++ (entries.filter (fun e => e.type == "speech")).drop ls.length := by
  refine ⟨?_, fun ls => label_speech_filter entries ls⟩
  have hnonempty : ((entries.filter (fun e => e.type == "speech")).filterMap
      (fun e => e.text)).isEmpty = false := by
    cases hs : entries.filter (fun e => e.type == "speech") with
    | nil => exact absurd hs hne
    | cons a as =>
      have ha : a.text.isSome := by
        have h2 := htext
        rw [hs] at h2
        exact List.all_eq_true.mp h2 a (by simp)
      cases hat : a.text with
      | none => rw [hat] at ha; simp at ha
      | some t => simp [hat]
  simp only [classify_entries]
  rw [if_pos htext, if_neg (by simp [hnonempty])]

theorem classify_mismatch_truncates_witness :
    ([mismatchA, mismatchB].filter (fun e => e.type == "speech")).all
        (fun e => e.text.isSome) = true ∧
      [mismatchA, mismatchB].filter (fun e => e.type == "speech") ≠ [] ∧
      classify_entries [mismatchA, mismatchB] (fun _ => [(1 : Int)])
        = Except.ok (some (label_speech [mismatchA, mismatchB]
            (([mismatchA, mismatchB].filter (fun e => e.type == "speech")).filterMap
                (fun e => e.text) |> (fun _ => [(1 : Int)])))) ∧
      (label_speech [mismatchA, mismatchB] [(1 : Int)]).filter
          (fun e => e.type == "speech")
        = (List.zipWith setLabel
              ([mismatchA, mismatchB].filter (fun e => e.type == "speech"))
              [(1 : Int)])
          ++ ([mismatchA, mismatchB].filter (fun e => e.type == "speech")).drop
              [(1 : Int)].length :=
  ⟨by decide, by decide,
    (classify_mismatch_truncates [mismatchA, mismatchB] (fun _ => [(1 : Int)])
      (by decide) (by decide)).1,
    (classify_mismatch_truncates [mismatchA, mismatchB] (fun _ => [(1 : Int)])
      (by decide) (by decide)).2 [(1 : Int)]⟩

/-- C10: with zero speech intervals the Classification Gate performs no
write: classify returns cleanly with no rewritten data (only the warning is
printed), for both accepted container shapes, so the persisted timeline file
is left untouched. -/
theorem classify_no_speech_no_write (entries : List Entry)
    (predict : List String → List Int)
    (h : entries.filter (fun e => e.type == "speech") = []) :
    classify (JsonData.arr entries) predict = Except.ok none ∧
      classify (JsonData.obj entries) predict = Except.ok none := by
  have hcore : classify_entries entries predict = Except.ok none := by
    simp [classify_entries, h]
  constructor <;> simp [classify, hcore, Except.map]

theorem classify_no_speech_no_write_witness :
    [wSilence].filter (fun e => e.type == "speech") = [] ∧
      (classify (JsonData.arr [wSilence]) (fun _ => []) = Except.ok none ∧
        classify (JsonData.obj [wSilence]) (fun _ => []) = Except.ok none) :=
  ⟨by decide, classify_no_speech_no_write [wSilence] (fun _ => []) (by decide)⟩

/-- Greedy run of decimal digits at the head of the input (the regex atom of
one or more digits): the digit span and the remaining input. -/
def digitsSpan : List Char → List Char × List Char
  | [] => ([], [])
  | c :: cs =>
    if c.isDigit then
      ((c :: (digitsSpan cs).1), (digitsSpan cs).2)
    else ([], c :: cs)

/-- Match the captured group of the patterns at lines 44-45 — one or more
digits, a literal decimal point, one or more digits — at the head of the
input.  Returns the captured text and the remaining input; integer-formatted
timestamps (no decimal point) do not match. -/
def matchFloat (cs : List Char) : Option (String × List Char) :=
  if (digitsSpan cs).1.isEmpty then none
  else
    match (digitsSpan cs).2 with
    | '.' :: r2 =>
      if (digitsSpan r2).1.isEmpty then none
      else
        some (String.mk ((digitsSpan cs).1 ++ '.' :: (digitsSpan r2).1),
          (digitsSpan r2).2)
    | _ => none

/-- Attempt the whole pattern — the literal key followed by the captured
decimal number — at the head of the input. -/
def tryMatch (key : List Char) (cs : List Char) : Option (String × List Char) :=
  if key.isPrefixOf cs then matchFloat (cs.drop key.length) else none

/-- re.findall of the key-and-decimal pattern: scan left to right; at a match
emit the capture and continue after the matched text, otherwise advance one
character.  The fuel argument, instantiated with the input length by findall,
bounds the recursion; every step consumes at least one character, so the scan
never exhausts it. -/
def findallFuel (key : List Char) : Nat → List Char → List String
  | 0, _ => []
  | _ + 1, [] => []
  | fuel + 1, c :: cs =>
    match tryMatch key (c :: cs) with
    | some (cap, rest) => cap :: findallFuel key fuel rest
    | none => findallFuel key fuel cs

/-- re.findall over a whole input. -/
def findall (key : List Char) (cs : List Char) : List String :=
  findallFuel key cs.length cs

/-- parse_silence_data line 44: the silence_start captures of the diagnostic
output. -/
def silence_start_times (ffmpeg_output : String) : List String :=
  findall "silence_start: ".data ffmpeg_output.data

/-- parse_silence_data line 45: the silence_end captures of the diagnostic
output. -/
def silence_end_times (ffmpeg_output : String) : List String :=
  findall "silence_end: ".data ffmpeg_output.data

/-- Numeric value of a digit string, most significant digit first. -/
def natOfDigits (ds : List Char) : Nat :=
  ds.foldl (fun n c => 10 * n + (c.toNat - 48)) 0

/-- Python float() on a captured timestamp, modelled as the exact decimal
rational the text denotes. -/
def floatOfString (s : String) : ℚ :=
  match (digitsSpan s.data).2 with
  | '.' :: rest =>
    (natOfDigits (digitsSpan s.data).1 : ℚ)
      + (natOfDigits (digitsSpan rest).1 : ℚ) / ((10 : ℚ) ^ (digitsSpan rest).1.length)
  | _ => (natOfDigits (digitsSpan s.data).1 : ℚ)

/-- parse_silence_data, lines 41-49: zip the start captures with the end
captures positionally and build one silence entry per pair. -/
def parse_silence_data (ffmpeg_output : String) : List Entry :=
  (List.zip (silence_start_times ffmpeg_output)
      (silence_end_times ffmpeg_output)).map
    (fun p => ⟨floatOfString p.1, floatOfString p.2, "silence", none, none⟩)

theorem getElem?_zip_some {α β : Type} (l₁ : List α) (l₂ : List β) (i : Nat)
    (a : α) (b : β) (h1 : l₁[i]? = some a) (h2 : l₂[i]? = some b) :
    (List.zip l₁ l₂)[i]? = some (a, b) := by
  induction l₁ generalizing l₂ i with
  | nil => simp at h1
  | cons x xs ih =>
    cases l₂ with
    | nil => simp at h2
    | cons y ys =>
      cases i with
      | zero =>
        simp only [List.getElem?_cons_zero, Option.some_inj] at h1 h2
        simp [List.zip_cons_cons, h1, h2]
      | succ n =>
        simp only [List.zip_cons_cons, List.getElem?_cons_succ] at h1 h2 ⊢
        exact ih ys n h1 h2

theorem matchFloat_dot (cs : List Char) (cap : String) (rest : List Char)
    (h : matchFloat cs = some (cap, rest)) : '.' ∈ cap.data := by
  unfold matchFloat at h
  split at h
  · exact absurd h (by simp)
  · split at h
    · split at h
      · exact absurd h (by simp)
      · rw [Option.some_inj, Prod.mk.injEq] at h
        rw [← h.1]
        simp
    · exact absurd h (by simp)

theorem tryMatch_dot (key : List Char) (cs : List Char) (cap : String)
    (rest : List Char) (h : tryMatch key cs = some (cap, rest)) : '.' ∈ cap.data := by
  unfold tryMatch at h
  split at h
  · exact matchFloat_dot _ _ _ h
  · exact absurd h (by simp)

theorem findallFuel_dot (key : List Char) (fuel : Nat) :
    ∀ (cs : List Char) (s : String), s ∈ findallFuel key fuel cs → '.' ∈ s.data := by
  induction fuel with
  | zero =>
    intro cs s h
    simp [findallFuel] at h
  | succ n ih =>
    intro cs s h
    cases cs with
    | nil => simp [findallFuel] at h
    | cons c cs2 =>
      rw [findallFuel] at h
      cases htm : tryMatch key (c :: cs2) with
      | none =>
        rw [htm] at h
        exact ih cs2 s h
      | some pr =>
        rw [htm] at h
        rcases List.mem_cons.mp h with hh | hh
        · subst hh
          exact tryMatch_dot key (c :: cs2) pr.1 pr.2 (by simpa using htm)
        · exact ih pr.2 s hh

/-- C9: parse_silence_data returns exactly min(m, n) silence intervals, where
m and n are the numbers of silence_start and silence_end timestamps matched
by the decimal patterns; every matched timestamp contains a decimal point
(integer-formatted timestamps never match and are silently dropped, as are
surplus unmatched timestamps beyond the shorter capture list); the i-th
interval pairs the i-th start with the i-th end, converted to their decimal
values, with type "silence". -/
theorem parse_silence_data_spec (ffmpeg_output : String) :
    (parse_silence_data ffmpeg_output).length
        = min (silence_start_times ffmpeg_output).length
            (silence_end_times ffmpeg_output).length ∧
      (∀ s ∈ silence_start_times ffmpeg_output, '.' ∈ s.data) ∧
      (∀ s ∈ silence_end_times ffmpeg_output, '.' ∈ s.data) ∧
      ∀ (i : Nat) (s e : String),
        (silence_start_times ffmpeg_output)[i]? = some s →
        (silence_end_times ffmpeg_output)[i]? = some e →
        (parse_silence_data ffmpeg_output)[i]?
          = some ⟨floatOfString s, floatOfString e, "silence", none, none⟩ := by
  refine ⟨?_, ?_, ?_, ?_⟩
  · simp [parse_silence_data, List.length_zip]
  · intro s hs
    have hm : s ∈ findallFuel "silence_start: ".data ffmpeg_output.data.length
        ffmpeg_output.data := hs
    exact findallFuel_dot _ _ _ _ hm
  · intro s hs
    have hm : s ∈ findallFuel "silence_end: ".data ffmpeg_output.data.length
        ffmpeg_output.data := hs
    exact findallFuel_dot _ _ _ _ hm
  · intro i s e h1 h2
    unfold parse_silence_data
    rw [List.getElem?_map, getElem?_zip_some _ _ i s e h1 h2]
    rfl

/-- A concrete silence-detection diagnostic: two well-formed start/end pairs,
one integer-formatted start timestamp (dropped by the pattern) and one
integer-formatted end timestamp (dropped as well). -/
def exampleDiag : String :=
  "x silence_start: 1.5 y silence_end: 3.25 | z silence_start: 7 silence_start: 10.0 silence_end: 12.5 w silence_end: 20"

theorem parse_silence_data_spec_witness :
    silence_start_times exampleDiag = ["1.5", "10.0"] ∧
      silence_end_times exampleDiag = ["3.25", "12.5"] ∧
      (parse_silence_data exampleDiag).length
        = min (silence_start_times exampleDiag).length
            (silence_end_times exampleDiag).length ∧
      (silence_start_times exampleDiag)[1]? = some "10.0" ∧
      (silence_end_times exampleDiag)[1]? = some "12.5" ∧
      (parse_silence_data exampleDiag)[1]?
        = some ⟨floatOfString "10.0", floatOfString "12.5", "silence", none, none⟩ :=
  ⟨by decide, by decide, (parse_silence_data_spec exampleDiag).1, by decide, by decide,
    (parse_silence_data_spec exampleDiag).2.2.2 1 "10.0" "12.5" (by decide) (by decide)⟩
